import Mathlib

/-!
Verification of the bibicut workflow-orchestration core against its
specification.  The Python sources under `automation/` are shallowly
embedded: pure data flow becomes Lean functions, `async` control flow
becomes explicit state / oracle parameters, exceptions become
`Except String`, and the external collaborators (ffmpeg, the browser
agent, websocket clients) become oracles supplied as arguments.
Floating-point durations are modelled as rationals.
-/

namespace Bibicut

/-! ## Status snapshot (websocket_server.py, `current_status`)

The broadcaster's shared snapshot.  `progress` is a Python float,
modelled as `ℚ`. -/

structure Status where
  status : String
  message : String
  progress : ℚ
  current_chunk : ℕ
  total_chunks : ℕ
  phase : String
deriving DecidableEq, Repr

/-- The module-level initial snapshot (websocket_server.py lines 14–21),
also the snapshot installed by the `reset` action. -/
def initial_status : Status :=
  { status := "idle", message := "", progress := 0,
    current_chunk := 0, total_chunks := 0, phase := "waiting" }

/-- `update_status` (websocket_server.py lines 36–54).  The Python
signature is `update_status(status, message, progress=0, phase=None,
current_chunk=None, total_chunks=None)`; a caller omitting an optional
argument is modelled by passing `none`.  `status`, `message` and
`progress` are assigned unconditionally (with `progress` defaulting
to `0` when omitted); `phase`, `current_chunk` and `total_chunks` are
assigned only under an `is not None` guard. -/
def update_status (s : Status) (status message : String)
    (progress : Option ℚ) (phase : Option String)
    (current_chunk total_chunks : Option ℕ) : Status :=
  { status := status
    message := message
    progress := progress.getD 0
    phase := phase.getD s.phase
    current_chunk := current_chunk.getD s.current_chunk
    total_chunks := total_chunks.getD s.total_chunks }

/-! ## Broadcast fan-out (websocket_server.py, `broadcast_message`)

`broadcast_message` serialises the message once and awaits
`asyncio.gather(*(client.send(...) for client in connected_clients),
return_exceptions=True)`.  With `return_exceptions=True` every send is
awaited and a failing send contributes its exception to the result
list instead of raising; the gathered list is discarded by the caller.
Each client's delivery attempt is an oracle `send : C → Except E Unit`. -/

/-- One send per connected client, in registry order; an error outcome
for one client is recorded in the result list and the remaining sends
still happen.  This is the semantics of `gather` with
`return_exceptions=True`. -/
def send_all {C E : Type} (send : C → Except E Unit) :
    List C → List (Except E Unit)
  | [] => []
  | c :: cs => send c :: send_all send cs

/-- `broadcast_message` (websocket_server.py lines 25–31): skips the
fan-out entirely when no client is connected, otherwise performs every
send; the operation itself never propagates a delivery error. -/
def broadcast_message {C E : Type} (clients : List C)
    (send : C → Except E Unit) : Except E (List (Except E Unit)) :=
  if clients.isEmpty then Except.ok []
  else Except.ok (send_all send clients)

/-! ## Chunk-count arithmetic (video_processor.py, `split_video_to_chunks`)

`num_chunks = int(duration / chunk_duration)
              + (1 if duration % chunk_duration > 0 else 0)`
with `duration` a float and `chunk_duration` an int.  `int(...)`
truncates toward zero and Python's float `%` takes the sign of the
divisor (floor-based remainder). -/

/-- Python `int(x)` for a real value: truncation toward zero. -/
def pytrunc (x : ℚ) : ℤ := if 0 ≤ x then ⌊x⌋ else ⌈x⌉

/-- Python float `a % b`: `a - b * ⌊a / b⌋`. -/
def pymod (a b : ℚ) : ℚ := a - b * ⌊a / b⌋

/-- The chunk count computed at video_processor.py line 116. -/
def num_chunks (duration chunk_duration : ℚ) : ℤ :=
  pytrunc (duration / chunk_duration)
    + (if 0 < pymod duration chunk_duration then 1 else 0)

/-! ## Progress callbacks

The progress callback handed to `VideoProcessor` / `SubformerAgent` is
an arbitrary user function that may itself raise; it is modelled as an
oracle `String → ℚ → Except String Unit`. -/

abbrev Callback := String → ℚ → Except String Unit

namespace VideoProcessor

/-- `VideoProcessor.report_progress` (video_processor.py lines 15–22):
invokes the callback inside `try/except Exception`, logging and
swallowing any error, so the surrounding operation always continues. -/
def report_progress (cb : Callback) (message : String) (progress : ℚ) :
    Except String Unit :=
  match cb message progress with
  | Except.ok _ => Except.ok ()
  | Except.error _ => Except.ok ()

end VideoProcessor

/-! ## Splitting (video_processor.py, `split_video_to_chunks`)

The per-index cut is an oracle: `success` is the boolean returned by
`run_ffmpeg` (after its internal retries), `path_found` models
`chunk_path.exists()` and `size` models `chunk_path.stat().st_size`
(0 when missing). -/

structure CutOutcome where
  success : Bool
  path_found : Bool
  size : ℕ
deriving DecidableEq, Repr

/-- The acceptance test at video_processor.py line 139:
`success and chunk_path.exists() and chunk_path.stat().st_size > 0`. -/
def cut_accepted (o : CutOutcome) : Bool :=
  o.success && o.path_found && decide (0 < o.size)

/-- The `for i in range(num_chunks)` loop body (video_processor.py
lines 119–144): an accepted chunk is appended and a progress event
`((i+1)/num_chunks)*100` reported; a rejected chunk is only logged. -/
def split_loop (cb : Callback) (cut : ℕ → CutOutcome) (n : ℕ) :
    List ℕ → List ℕ → Except String (List ℕ)
  | [], acc => Except.ok acc
  | i :: rest, acc =>
    if cut_accepted (cut i) then do
      let _ ← VideoProcessor.report_progress cb
        s!"Chunk {i + 1}/{n} létrehozva" (((i : ℚ) + 1) / (n : ℚ) * 100)
      split_loop cb cut n rest (acc ++ [i])
    else
      split_loop cb cut n rest acc

/-- `split_video_to_chunks` (video_processor.py lines 101–149),
returning the accepted chunk indices (index `i` stands for the
artifact `chunks/chunk_%04d.mp4` it determines).  Raises when the
probed duration is `≤ 0` and when no chunk at all was accepted. -/
def split_video_to_chunks (cb : Callback) (duration chunk_duration : ℚ)
    (cut : ℕ → CutOutcome) : Except String (List ℕ) := do
  let _ ← VideoProcessor.report_progress cb "Videó darabolása elkezdődött..." 0
  if duration ≤ 0 then
    Except.error "Nem sikerült meghatározni a videó hosszát"
  else do
    let n := (num_chunks duration chunk_duration).toNat
    let chunks ← split_loop cb cut n (List.range n) []
    if chunks.isEmpty then
      Except.error "Nem sikerült egyetlen chunkot sem létrehozni"
    else
      Except.ok chunks

/-! ## Merging (video_processor.py, `merge_video_chunks`)

`sorted(chunks)` sorts the chunk paths by Python's string comparison:
lexicographic on code points.  Artifact names are therefore embedded
as lists of code points. -/

/-- Python string `≤`: lexicographic comparison on code points, a
strict prefix comparing smaller. -/
def lex_le : List ℕ → List ℕ → Bool
  | [], _ => true
  | _ :: _, [] => false
  | a :: as, b :: bs =>
    if a < b then true else if b < a then false else lex_le as bs

/-- Code points of a Lean string literal. -/
def str_codes (s : String) : List ℕ := s.toList.map Char.toNat

/-- Code points of the decimal digits of `n`, most significant first
(empty for 0), by fuel-based structural recursion; any `fuel ≥ n`
yields all digits. -/
def digits_core (fuel n : ℕ) : List ℕ :=
  match fuel with
  | 0 => []
  | fuel + 1 => if n = 0 then [] else digits_core fuel (n / 10) ++ [48 + n % 10]

/-- Code points of Python's `f"{i:04d}"`: zero-padded to width 4 for
`i < 10000`, and the full decimal expansion — five or more digits,
no truncation — for `i ≥ 10000`. -/
def pad4 (i : ℕ) : List ℕ :=
  if i < 10000 then
    [48 + i / 1000 % 10, 48 + i / 100 % 10, 48 + i / 10 % 10, 48 + i % 10]
  else
    digits_core i i

/-- The dubbed-segment artifact name `dubbed_chunk_%04d.mp4` produced
by `dub_single_chunk` (subformer_agent.py line 88) for sequence
index `i`. -/
def dubbed_chunk_name (i : ℕ) : List ℕ :=
  str_codes "dubbed_chunk_" ++ pad4 i ++ str_codes ".mp4"

/-- The order in which `merge_video_chunks` writes `file '...'` lines
into the concat list (video_processor.py lines 158–161): the input
re-sorted by `sorted(chunks)`, unconditionally. -/
def concat_order (chunks : List (List ℕ)) : List (List ℕ) :=
  chunks.mergeSort lex_le

/-- `merge_video_chunks` (video_processor.py lines 151–183), returning
the concat-list order handed to ffmpeg; `ffmpeg_ok` is the oracle for
`run_ffmpeg` succeeding and the output artifact existing. -/
def merge_video_chunks (chunks : List (List ℕ)) (ffmpeg_ok : Bool) :
    Except String (List (List ℕ)) :=
  if chunks.isEmpty then
    Except.error "Nincsenek összeillesztendő chunkok"
  else if ffmpeg_ok then
    Except.ok (concat_order chunks)
  else
    Except.error "Nem sikerült összeilleszteni a videó részleteket"

/-! ## Segment transformation (subformer_agent.py)

One dubbing attempt for one chunk: `agent_ok` models `agent.run()`
completing without an exception, `file_size` models the size of the
expected output artifact afterwards (0 when missing). -/

structure DubAttempt where
  agent_ok : Bool
  file_size : ℕ
deriving DecidableEq, Repr

/-- The success test at subformer_agent.py line 121: the attempt raised
no exception and `output_path.exists() and output_path.stat().st_size > 0`. -/
def dub_attempt_ok (a : DubAttempt) : Bool :=
  a.agent_ok && decide (0 < a.file_size)

/-- The `for attempt in range(MAX_RETRIES)` loop of `dub_single_chunk`
(subformer_agent.py lines 112–137): returns whether some attempt among
the next `remaining` ones (starting at attempt number `k`) succeeds;
a failed attempt only logs and sleeps before the next one. -/
def dub_try_attempts (att : ℕ → DubAttempt) (k : ℕ) : ℕ → Bool
  | 0 => false
  | remaining + 1 =>
    if dub_attempt_ok (att k) then true
    else dub_try_attempts att (k + 1) remaining

/-- One argument tuple passed to `SubformerAgent.report_progress`:
message, progress value, and the optional phase / chunk counters. -/
structure Event where
  message : String
  progress : ℚ
  phase : Option String
  current_chunk : Option ℕ
  total_chunks : Option ℕ
deriving DecidableEq, Repr

namespace SubformerAgent

/-- `SubformerAgent.report_progress` (subformer_agent.py lines 28–35):
forwards `(message, progress)` to the callback inside
`try/except Exception`; a callback error is logged and swallowed. -/
def report_progress (cb : Callback) (e : Event) : Except String Unit :=
  match cb e.message e.progress with
  | Except.ok _ => Except.ok ()
  | Except.error _ => Except.ok ()

end SubformerAgent

/-- The event emitted on entry to `dub_single_chunk`
(subformer_agent.py lines 80–86): progress base `(i/n)*100`. -/
def dub_start_event (i n : ℕ) : Event :=
  { message := s!"Chunk {i + 1}/{n} dubbingolása..."
    progress := (i : ℚ) / (n : ℚ) * 100
    phase := some "dubbing"
    current_chunk := some (i + 1)
    total_chunks := some n }

/-- The event emitted when chunk `i` is dubbed successfully
(subformer_agent.py lines 122–129): progress `((i+1)/n)*100`. -/
def dub_done_event (i n : ℕ) : Event :=
  { message := s!"Chunk {i + 1}/{n} dubbingolva!"
    progress := ((i : ℚ) + 1) / (n : ℚ) * 100
    phase := some "dubbing"
    current_chunk := some (i + 1)
    total_chunks := some n }

/-- The event emitted after all retries for chunk `i` are exhausted
(subformer_agent.py lines 139–145): progress falls back to the phase
base `(i/n)*100` and the phase argument is `"error"`. -/
def dub_fail_event (i n : ℕ) : Event :=
  { message := s!"HIBA: Chunk {i + 1} dubbingolása sikertelen!"
    progress := (i : ℚ) / (n : ℚ) * 100
    phase := some "error"
    current_chunk := some (i + 1)
    total_chunks := some n }

/-- `dub_single_chunk` (subformer_agent.py lines 78–146) for chunk
index `i` of `n`, with `max_retries` attempts drawn from the oracle
`att`.  Returns the events it reported together with `some i` (the
output artifact for index `i`) on success and `none` when every
attempt failed. -/
def dub_single_chunk (cb : Callback) (att : ℕ → DubAttempt)
    (max_retries i n : ℕ) : Except String (List Event × Option ℕ) := do
  let eStart := dub_start_event i n
  let _ ← SubformerAgent.report_progress cb eStart
  if dub_try_attempts att 0 max_retries then do
    let eDone := dub_done_event i n
    let _ ← SubformerAgent.report_progress cb eDone
    Except.ok ([eStart, eDone], some i)
  else do
    let eFail := dub_fail_event i n
    let _ ← SubformerAgent.report_progress cb eFail
    Except.ok ([eStart, eFail], none)

/-- `login` (subformer_agent.py lines 37–76), abstracted to its
outcome: raises `RuntimeError` when every login attempt fails. -/
def login (login_ok : Bool) : Except String Unit :=
  if login_ok then Except.ok ()
  else Except.error "Nem sikerült bejelentkezni a Subformer-be"

/-- The `for i, chunk in enumerate(sorted_chunks)` loop of
`dub_all_chunks` (subformer_agent.py lines 158–163): a chunk whose
dubbing failed is logged and skipped, the loop continues. -/
def dub_loop (cb : Callback) (oc : ℕ → ℕ → DubAttempt)
    (max_retries n : ℕ) : List ℕ → List ℕ → Except String (List ℕ)
  | [], acc => Except.ok acc
  | i :: rest, acc => do
    let r ← dub_single_chunk cb (oc i) max_retries i n
    match r.2 with
    | some _ => dub_loop cb oc max_retries n rest (acc ++ [i])
    | none => dub_loop cb oc max_retries n rest acc

/-- `dub_all_chunks` (subformer_agent.py lines 148–176) over `n`
chunks (the sorted chunk list is `range n` since chunk names are
index-ordered); `logged_in` models `self.is_logged_in`.  Returns the
indices of the successfully dubbed chunks. -/
def dub_all_chunks (cb : Callback) (oc : ℕ → ℕ → DubAttempt)
    (max_retries n : ℕ) (logged_in login_ok : Bool) :
    Except String (List ℕ) := do
  let _ ← SubformerAgent.report_progress cb
    { message := "Dubbingolási folyamat indítása...", progress := 0,
      phase := some "dubbing", current_chunk := some 0,
      total_chunks := some n }
  let _ ← if logged_in then Except.ok () else login login_ok
  let dubbed ← dub_loop cb oc max_retries n (List.range n) []
  let _ ←
    if dubbed.isEmpty then
      SubformerAgent.report_progress cb
        { message := "HIBA: Egyetlen chunk dubbingolása sem sikerült!",
          progress := 0, phase := some "error",
          current_chunk := none, total_chunks := none }
    else
      SubformerAgent.report_progress cb
        { message := s!"Dubbingolás kész: {dubbed.length}/{n} chunk sikeresen feldolgozva",
          progress := 100, phase := some "dubbing",
          current_chunk := some n, total_chunks := some n }
  Except.ok dubbed

/-- The dictionary returned by `process_video_with_dubbing`.  On
success it carries the dubbed chunk indices (standing for the
`dubbed_chunks` path list) plus the fixed merged / audio / final
artifact names; on failure only the error message. -/
structure ResultPayload where
  success : Bool
  error : Option String
  dubbed_chunks : List ℕ
deriving DecidableEq, Repr

/-- The failure dictionary `{"success": False, "error": e}`. -/
def fail_payload (e : String) : ResultPayload :=
  { success := false, error := some e, dubbed_chunks := [] }

/-- `extract_audio` (video_processor.py lines 185–215), abstracted to
its outcome oracle. -/
def extract_audio (ok : Bool) : Except String Unit :=
  if ok then Except.ok () else Except.error "Nem sikerült kinyerni a hangot"

/-- `replace_audio` (video_processor.py lines 217–238), abstracted to
its outcome oracle. -/
def replace_audio (ok : Bool) : Except String Unit :=
  if ok then Except.ok () else Except.error "Nem sikerült cserélni a hangot"

/-- `process_video_with_dubbing` (subformer_agent.py lines 178–222).
The body runs in `try/except Exception`; any raise from the dubbing,
merging, extracting or replacing stage is caught and turned into the
failure dictionary, so the function itself always returns a payload.
An empty dubbed set short-circuits with the total-failure dictionary
before any merge is attempted. -/
def process_video_with_dubbing (cb : Callback) (oc : ℕ → ℕ → DubAttempt)
    (max_retries n : ℕ) (logged_in login_ok merge_ok extract_ok replace_ok : Bool) :
    ResultPayload :=
  let body : Except String ResultPayload := do
    let dubbed ← dub_all_chunks cb oc max_retries n logged_in login_ok
    if dubbed.isEmpty then
      Except.ok (fail_payload "Nem sikerült dubbingolni egyetlen chunkot sem")
    else do
      let _ ← merge_video_chunks (dubbed.map dubbed_chunk_name) merge_ok
      let _ ← extract_audio extract_ok
      let _ ← replace_audio replace_ok
      Except.ok { success := true, error := none, dubbed_chunks := dubbed }
  match body with
  | Except.ok p => p
  | Except.error e => fail_payload e

/-- The result handling at the end of `run_workflow`
(websocket_server.py lines 187–192): a successful payload sets the
`completed` snapshot with progress 100, a failed payload sets the
`error` snapshot with the payload's error message and progress 0; the
payload itself is broadcast in both cases. -/
def run_workflow_finish (prior : Status) (p : ResultPayload) :
    Status × ResultPayload :=
  if p.success then
    (update_status prior "completed" "Workflow sikeresen befejezve!"
      (some 100) (some "completed") none none, p)
  else
    (update_status prior "error" (p.error.getD "Ismeretlen hiba")
      (some 0) (some "error") none none, p)

/-! ## Control boundaries (websocket_server.py `handle_message`,
http_server.py `start_workflow`)

`current_workflow_task and not current_workflow_task.done()` is
modelled by `tracked_running`; `workflow_tasks` counts the live
`run_workflow` tasks actually created (`asyncio.create_task`). -/

structure ServerState where
  tracked_running : Bool
  workflow_tasks : ℕ
  current : Status
deriving DecidableEq, Repr

inductive WsReply where
  | ack (message : String)
  | error (message : String)
deriving DecidableEq, Repr

/-- The `start_workflow` branch of `handle_message`
(websocket_server.py lines 93–113): with a running tracked task the
request is answered with an error and nothing else happens; otherwise
a `run_workflow` task is created and acknowledged.  No status update
is issued on either path. -/
def ws_start_workflow (s : ServerState) (video_path : Option String) :
    ServerState × WsReply :=
  match video_path with
  | some p =>
    if s.tracked_running then
      (s, WsReply.error "Már fut egy workflow. Várd meg a befejezését vagy állítsd le.")
    else
      ({ s with tracked_running := true,
                workflow_tasks := s.workflow_tasks + 1 },
       WsReply.ack s!"Workflow elindítva: {p}")
  | none => (s, WsReply.error "Nincs megadva video_path")

/-- An HTTP response: status code plus whether the JSON body carries
`"success": true`. -/
structure HttpReply where
  code : ℕ
  success : Bool
deriving DecidableEq, Repr

/-- The `POST /start` handler (http_server.py lines 84–122): after the
`video_path` presence and existence checks it calls
`asyncio.create_task(run_workflow(path))` unconditionally — the
imported `current_workflow_task` is never consulted and never
reassigned — and replies 200 `{"success": true}`. -/
def http_start_workflow (s : ServerState) (video_path : Option String)
    (file_found : Bool) : ServerState × HttpReply :=
  match video_path with
  | none => (s, { code := 400, success := false })
  | some _ =>
    if file_found then
      ({ s with workflow_tasks := s.workflow_tasks + 1 },
       { code := 200, success := true })
    else
      (s, { code := 404, success := false })

/-! ## Cooperative cancellation (websocket_server.py `run_workflow`,
`handle_message` "cancel" branch)

`task.cancel()` raises `asyncio.CancelledError` inside the task at its
next await point.  `CancelledError` is a `BaseException`, so the
`except Exception` inside `process_video_with_dubbing` does not catch
it; it propagates to the `except asyncio.CancelledError` handler in
`run_workflow` (lines 194–196), which issues the `cancelled` status
update and re-raises.  A run is therefore linearised as: the awaited
steps before the observation point happen, everything after it does
not, and the handler's update runs last.

Each `WStep` is one awaited step of `run_workflow` (its own
`update_status` calls, the split call, one dubbing call per chunk, and
the three reassembly calls guarded by at least one dubbed chunk). -/

inductive WStep where
  | upd_initializing
  | upd_splitting
  | split_call
  | upd_dubbing
  | dub_call (i : ℕ)
  | merge_call
  | extract_call
  | replace_call
  | upd_completed
  | upd_error
deriving DecidableEq, Repr

/-- The sequence of awaited steps of a `run_workflow` execution on a
video that splits into `n` chunks; `any_dubbed` tells whether at least
one chunk was dubbed, which decides between the reassembly tail and
the immediate error result (subformer_agent.py lines 189–205,
websocket_server.py lines 169–192). -/
def workflow_script (n : ℕ) (any_dubbed : Bool) : List WStep :=
  [WStep.upd_initializing, WStep.upd_splitting, WStep.split_call,
   WStep.upd_dubbing]
  ++ (List.range n).map WStep.dub_call
  ++ (if any_dubbed then
        [WStep.merge_call, WStep.extract_call, WStep.replace_call,
         WStep.upd_completed]
      else [WStep.upd_error])

/-- The steps that actually execute when cancellation is observed at
await point `k`: the prefix before `k`. -/
def cancelled_run_steps (n : ℕ) (any_dubbed : Bool) (k : ℕ) : List WStep :=
  (workflow_script n any_dubbed).take k

/-- The final snapshot written by the `except asyncio.CancelledError`
handler of `run_workflow` (line 195):
`update_status("cancelled", "Workflow megszakítva", 0, "cancelled")`. -/
def cancelled_final_status (prior : Status) : Status :=
  update_status prior "cancelled" "Workflow megszakítva"
    (some 0) (some "cancelled") none none

/-- The "cancel" branch of `handle_message` (websocket_server.py
lines 121–134): with a running tracked task it cancels it and writes
the same `cancelled` snapshot; otherwise it only replies with an
error. -/
def ws_cancel (s : ServerState) : ServerState × WsReply :=
  if s.tracked_running then
    ({ s with current := cancelled_final_status s.current },
     WsReply.ack "Workflow megszakítva")
  else
    (s, WsReply.error "Nincs futó workflow")

/-! ## Helper lemmas -/

lemma ok_bind {α β : Type} (a : α) (f : α → Except String β) :
    (Except.ok a >>= f) = f a := rfl

lemma vp_report_progress_ok (cb : Callback) (msg : String) (p : ℚ) :
    VideoProcessor.report_progress cb msg p = Except.ok () := by
  unfold VideoProcessor.report_progress
  cases cb msg p <;> rfl

lemma sa_report_progress_ok (cb : Callback) (e : Event) :
    SubformerAgent.report_progress cb e = Except.ok () := by
  unfold SubformerAgent.report_progress
  cases cb e.message e.progress <;> rfl

lemma split_loop_eq (cb : Callback) (cut : ℕ → CutOutcome) (n : ℕ) :
    ∀ (l acc : List ℕ),
      split_loop cb cut n l acc
        = Except.ok (acc ++ l.filter fun i => cut_accepted (cut i)) := by
  intro l
  induction l with
  | nil => intro acc; simp [split_loop]
  | cons i rest ih =>
    intro acc
    by_cases h : cut_accepted (cut i)
    · simp [split_loop, h, vp_report_progress_ok, ok_bind, ih,
        List.filter_cons, List.append_assoc]
    · simp [split_loop, h, ih, List.filter_cons]

lemma split_video_to_chunks_eq (cb : Callback) (d c : ℚ)
    (cut : ℕ → CutOutcome) :
    split_video_to_chunks cb d c cut
      = if d ≤ 0 then
          Except.error "Nem sikerült meghatározni a videó hosszát"
        else
          let l := (List.range (num_chunks d c).toNat).filter
            fun i => cut_accepted (cut i)
          if l.isEmpty then
            Except.error "Nem sikerült egyetlen chunkot sem létrehozni"
          else Except.ok l := by
  unfold split_video_to_chunks
  rw [vp_report_progress_ok]
  by_cases h : d ≤ 0
  · simp [h, ok_bind]
  · simp only [h, if_false, ok_bind, split_loop_eq, List.nil_append]

lemma dub_single_chunk_eq (cb : Callback) (att : ℕ → DubAttempt)
    (m i n : ℕ) :
    dub_single_chunk cb att m i n
      = if dub_try_attempts att 0 m then
          Except.ok ([dub_start_event i n, dub_done_event i n], some i)
        else
          Except.ok ([dub_start_event i n, dub_fail_event i n], none) := by
  unfold dub_single_chunk
  by_cases h : dub_try_attempts att 0 m
  · simp [h, sa_report_progress_ok, ok_bind]
  · simp [h, sa_report_progress_ok, ok_bind]

lemma dub_loop_eq (cb : Callback) (oc : ℕ → ℕ → DubAttempt) (m n : ℕ) :
    ∀ (l acc : List ℕ),
      dub_loop cb oc m n l acc
        = Except.ok (acc ++ l.filter fun i => dub_try_attempts (oc i) 0 m) := by
  intro l
  induction l with
  | nil => intro acc; simp [dub_loop]
  | cons i rest ih =>
    intro acc
    by_cases h : dub_try_attempts (oc i) 0 m
    · simp [dub_loop, dub_single_chunk_eq, h, ih, ok_bind,
        List.filter_cons, List.append_assoc]
    · simp [dub_loop, dub_single_chunk_eq, h, ih, ok_bind,
        List.filter_cons]

lemma dub_all_chunks_eq (cb : Callback) (oc : ℕ → ℕ → DubAttempt)
    (m n : ℕ) (lo : Bool) :
    dub_all_chunks cb oc m n true lo
      = Except.ok ((List.range n).filter fun i => dub_try_attempts (oc i) 0 m) := by
  unfold dub_all_chunks
  by_cases h : ((List.range n).filter fun i => dub_try_attempts (oc i) 0 m).isEmpty
  · simp [h, sa_report_progress_ok, ok_bind, dub_loop_eq]
  · simp [h, sa_report_progress_ok, ok_bind, dub_loop_eq]

lemma pymod_eq_fract (d c : ℚ) (hc : c ≠ 0) :
    pymod d c = c * Int.fract (d / c) := by
  unfold pymod Int.fract
  rw [mul_sub, mul_div_cancel₀ d hc]

lemma num_chunks_ceil (d c : ℚ) (hd : 0 < d) (hc : 0 < c) :
    num_chunks d c = ⌈d / c⌉ := by
  have hx : 0 < d / c := div_pos hd hc
  have hmod : pymod d c = c * Int.fract (d / c) := pymod_eq_fract d c hc.ne'
  have hmodpos : 0 < pymod d c ↔ 0 < Int.fract (d / c) := by
    rw [hmod]
    constructor
    · intro h
      by_contra hneg
      push_neg at hneg
      have := mul_nonpos_of_nonneg_of_nonpos hc.le hneg
      linarith
    · intro h; exact mul_pos hc h
  unfold num_chunks pytrunc
  rw [if_pos hx.le]
  rcases eq_or_lt_of_le (Int.fract_nonneg (d / c)) with hf | hf
  · have hzero : ¬ 0 < pymod d c := by
      rw [hmodpos, ← hf]
      exact lt_irrefl 0
    rw [if_neg hzero]
    have hxeq : d / c = (⌊d / c⌋ : ℚ) := by
      have := Int.fract_add_floor (d / c)
      rw [← hf] at this
      simpa using this.symm
    rw [add_zero]
    conv_rhs => rw [hxeq]
    rw [Int.ceil_intCast]
  · have hpos : 0 < pymod d c := hmodpos.mpr hf
    rw [if_pos hpos]
    have hfloor_lt : (⌊d / c⌋ : ℚ) < d / c := by
      unfold Int.fract at hf
      linarith
    symm
    rw [Int.ceil_eq_iff]
    constructor
    · push_cast
      linarith
    · push_cast
      have := Int.lt_floor_add_one (d / c)
      push_cast at this
      linarith

lemma num_chunks_pos (d c : ℚ) (hd : 0 < d) (hc : 0 < c) :
    1 ≤ num_chunks d c := by
  rw [num_chunks_ceil d c hd hc]
  exact Int.ceil_pos.mpr (div_pos hd hc)

lemma lex_le_refl : ∀ l : List ℕ, lex_le l l = true := by
  intro l
  induction l with
  | nil => rfl
  | cons a as ih => simp [lex_le, ih]

lemma lex_le_total : ∀ a b : List ℕ, (lex_le a b || lex_le b a) = true := by
  intro a
  induction a with
  | nil => intro b; simp [lex_le]
  | cons x xs ih =>
    intro b
    cases b with
    | nil => simp [lex_le]
    | cons y ys =>
      rcases Nat.lt_trichotomy x y with h | h | h
      · simp [lex_le, h, Nat.lt_asymm h]
      · subst h
        simp only [lex_le, lt_irrefl, if_false]
        exact ih ys
      · simp [lex_le, h, Nat.lt_asymm h]

lemma lex_le_trans : ∀ a b c : List ℕ,
    lex_le a b = true → lex_le b c = true → lex_le a c = true := by
  intro a
  induction a with
  | nil => intro b c _ _; rfl
  | cons x xs ih =>
    intro b c hab hbc
    cases b with
    | nil => simp [lex_le] at hab
    | cons y ys =>
      cases c with
      | nil => simp [lex_le] at hbc
      | cons z zs =>
        simp only [lex_le] at hab hbc ⊢
        split_ifs at hab hbc ⊢ with h1 h2 h3 h4 h5 h6 h7 h8 h9 <;>
          first
          | rfl
          | omega
          | (exact ih ys zs hab hbc)

lemma lex_le_antisymm : ∀ a b : List ℕ,
    lex_le a b = true → lex_le b a = true → a = b := by
  intro a
  induction a with
  | nil =>
    intro b _ hba
    cases b with
    | nil => rfl
    | cons y ys => simp [lex_le] at hba
  | cons x xs ih =>
    intro b hab hba
    cases b with
    | nil => simp [lex_le] at hab
    | cons y ys =>
      simp only [lex_le] at hab hba
      split_ifs at hab hba with h1 h2 <;>
        first
        | omega
        | simp at hab
        | simp at hba
        | (have hxy : x = y := by omega
           subst hxy
           rw [ih ys hab hba])

lemma lex_le_append_left : ∀ (p a b : List ℕ),
    lex_le (p ++ a) (p ++ b) = lex_le a b := by
  intro p
  induction p with
  | nil => intro a b; rfl
  | cons x xs ih =>
    intro a b
    simp only [List.cons_append, lex_le, lt_irrefl, if_false]
    exact ih a b

lemma pad4_le (i j : ℕ) (hij : i ≤ j) (hj : j < 10000) (s : List ℕ) :
    lex_le (pad4 i ++ s) (pad4 j ++ s) = true := by
  unfold pad4
  rw [if_pos (show i < 10000 by omega), if_pos hj]
  simp only [List.cons_append, List.nil_append, lex_le]
  split_ifs <;>
    first
    | rfl
    | (exact lex_le_refl s)
    | omega

lemma dubbed_chunk_name_le (i j : ℕ) (hij : i ≤ j) (hj : j < 10000) :
    lex_le (dubbed_chunk_name i) (dubbed_chunk_name j) = true := by
  unfold dubbed_chunk_name
  rw [List.append_assoc, List.append_assoc, lex_le_append_left]
  exact pad4_le i j hij hj _

lemma concat_order_map_name (ixs : List ℕ) (h : ∀ i ∈ ixs, i < 10000) :
    concat_order (ixs.map dubbed_chunk_name)
      = (ixs.mergeSort Nat.ble).map dubbed_chunk_name := by
  unfold concat_order
  apply @List.Perm.eq_of_sorted (List ℕ)
    (fun a b : List ℕ => lex_le a b = true)
  · intro a b _ _ hab hba
    exact lex_le_antisymm a b hab hba
  · exact List.sorted_mergeSort (fun a b c => lex_le_trans a b c)
      lex_le_total (ixs.map dubbed_chunk_name)
  · have hs : (ixs.mergeSort Nat.ble).Pairwise
        (fun a b : ℕ => Nat.ble a b = true) :=
      List.sorted_mergeSort
        (fun a b c hab hbc => by
          simp only [Nat.ble_eq] at *
          omega)
        (fun a b => by
          simp only [Bool.or_eq_true, Nat.ble_eq]
          omega)
        ixs
    have hmem : ∀ i ∈ ixs.mergeSort Nat.ble, i < 10000 := by
      intro i hi
      exact h i ((List.mergeSort_perm ixs Nat.ble).subset hi)
    rw [List.pairwise_map]
    refine List.Pairwise.imp_of_mem ?_ hs
    intro a b ha hb hab
    exact dubbed_chunk_name_le a b (by simpa using hab) (hmem b hb)
  · exact (List.mergeSort_perm (ixs.map dubbed_chunk_name) lex_le).trans
      ((List.mergeSort_perm ixs Nat.ble).map dubbed_chunk_name).symm

lemma process_video_with_dubbing_eq (cb : Callback)
    (oc : ℕ → ℕ → DubAttempt) (m n : ℕ) (lo : Bool) :
    process_video_with_dubbing cb oc m n true lo true true true
      = (if ((List.range n).filter fun i => dub_try_attempts (oc i) 0 m).isEmpty
         then fail_payload "Nem sikerült dubbingolni egyetlen chunkot sem"
         else { success := true, error := none,
                dubbed_chunks :=
                  (List.range n).filter fun i => dub_try_attempts (oc i) 0 m }) := by
  unfold process_video_with_dubbing
  rw [dub_all_chunks_eq, ok_bind]
  by_cases h : ((List.range n).filter fun i => dub_try_attempts (oc i) 0 m).isEmpty
  · simp [h]
  · have hne : ((List.range n).filter fun i => dub_try_attempts (oc i) 0 m) ≠ [] := by
      simpa [List.isEmpty_iff] using h
    have hmapne : (((List.range n).filter fun i => dub_try_attempts (oc i) 0 m).map
        dubbed_chunk_name) ≠ [] := by
      simpa using hne
    simp only [h, if_false, Bool.false_eq_true]
    simp [merge_video_chunks, extract_audio, replace_audio, ok_bind,
      List.isEmpty_iff, hmapne, h]

/-- The dubbing region of the workflow script: position `k` holding a
`dub_call` lies before the reassembly tail. -/
lemma workflow_script_dub_lt (n : ℕ) (b : Bool) (k i : ℕ)
    (hk : (workflow_script n b)[k]? = some (WStep.dub_call i)) :
    k < 4 + n := by
  by_contra hge
  push_neg at hge
  unfold workflow_script at hk
  have hlen : ([WStep.upd_initializing, WStep.upd_splitting, WStep.split_call,
      WStep.upd_dubbing] ++ (List.range n).map WStep.dub_call).length = 4 + n := by
    simp; omega
  rw [List.getElem?_append_right (by rw [hlen]; omega)] at hk
  rw [List.getElem?_eq_some] at hk
  obtain ⟨hlt, heq⟩ := hk
  have hmem := heq ▸ List.getElem_mem hlt
  cases b <;> simp at hmem

lemma workflow_script_prefix_no_tail (n : ℕ) (b : Bool) (k : ℕ)
    (hk : k < 4 + n) :
    ∀ w ∈ (workflow_script n b).take k,
      w ≠ WStep.merge_call ∧ w ≠ WStep.extract_call ∧ w ≠ WStep.replace_call := by
  intro w hw
  unfold workflow_script at hw
  rw [List.take_append_eq_append_take] at hw
  have hlen : ([WStep.upd_initializing, WStep.upd_splitting, WStep.split_call,
      WStep.upd_dubbing] ++ (List.range n).map WStep.dub_call).length = 4 + n := by
    simp; omega
  rw [hlen] at hw
  have hz : k - (4 + n) = 0 := by omega
  rw [hz, List.take_zero, List.append_nil] at hw
  have hmem := List.take_subset k _ hw
  simp only [List.mem_append, List.mem_map, List.mem_cons,
    List.mem_singleton, List.mem_range] at hmem
  rcases hmem with h | ⟨j, _, rfl⟩
  · rcases h with rfl | rfl | rfl | rfl | h0
    · simp
    · simp
    · simp
    · simp
    · simp at h0
  · simp

/-! ## Concrete fixtures used by witnesses and counterexamples -/

/-- A callback that never raises. -/
def pure_cb : Callback := fun _ _ => Except.ok ()

/-- A callback that always raises. -/
def raising_cb : Callback := fun _ _ => Except.error "callback boom"

/-- A snapshot of a job in the middle of the dubbing phase. -/
def processing_snapshot : Status :=
  { status := "processing", message := "Dubbingolás folyamatban",
    progress := 40, current_chunk := 2, total_chunks := 5,
    phase := "dubbing" }

/-- Server state with a live tracked workflow task. -/
def busy_server : ServerState :=
  { tracked_running := true, workflow_tasks := 1,
    current := processing_snapshot }

/-- A dubbing attempt oracle that always succeeds. -/
def good_att : ℕ → DubAttempt := fun _ => { agent_ok := true, file_size := 7 }

/-- A dubbing attempt oracle that always fails. -/
def bad_att : ℕ → DubAttempt := fun _ => { agent_ok := false, file_size := 0 }

/-! ## Claim theorems -/

/-- C1: the spec's single-active-job invariant holds at the websocket
boundary — `start_workflow` with a running tracked task is rejected
with an error reply, creates no task and leaves the status record
untouched — but the HTTP `/start` boundary violates it: evaluated in
the same busy state it creates a second live workflow task and replies
200 `{"success": true}`.  (The handler even imports
`current_workflow_task` without ever consulting it.) -/
theorem http_start_bypasses_single_job_guard :
    ws_start_workflow busy_server (some "input/video.mp4")
      = (busy_server,
         WsReply.error "Már fut egy workflow. Várd meg a befejezését vagy állítsd le.")
    ∧ (http_start_workflow busy_server (some "input/video.mp4") true).1.workflow_tasks = 2
    ∧ (http_start_workflow busy_server (some "input/video.mp4") true).2
        = { code := 200, success := true }
    ∧ (http_start_workflow busy_server (some "input/video.mp4") true).1.current
        = busy_server.current :=
  ⟨rfl, rfl, rfl, rfl⟩

/-- C3 counterexample: a call to `update_status` that omits `progress`
does NOT retain the prior progress value — the Python default `0` is
written unconditionally, so a snapshot at progress 50 drops to 0. -/
theorem update_status_omitted_progress_not_retained :
    (update_status processing_snapshot "processing" "Folyamatban"
        none none none none).progress ≠ processing_snapshot.progress := by
  simp [update_status, processing_snapshot]

/-- C3 (amended): `status` and `message` always overwrite; `progress`
is also always written, taking the default `0` when omitted rather
than retaining the prior value; `phase`, `current_chunk` and
`total_chunks` do retain their prior values when omitted and overwrite
when supplied. -/
theorem update_status_field_semantics (s : Status) (st msg : String)
    (p : Option ℚ) (ph : Option String) (cc tc : Option ℕ) :
    (update_status s st msg p ph cc tc).status = st
    ∧ (update_status s st msg p ph cc tc).message = msg
    ∧ (update_status s st msg p ph cc tc).progress = p.getD 0
    ∧ (update_status s st msg p ph cc tc).phase = ph.getD s.phase
    ∧ (update_status s st msg p ph cc tc).current_chunk = cc.getD s.current_chunk
    ∧ (update_status s st msg p ph cc tc).total_chunks = tc.getD s.total_chunks :=
  ⟨rfl, rfl, rfl, rfl, rfl, rfl⟩

/-- C9: broadcasting never raises towards the orchestrator (the result
is `ok` for every delivery oracle), every connected observer gets its
own send attempt, and each observer's outcome is exactly its own
send's outcome, independent of the other observers failing. -/
theorem broadcast_failure_isolated {C E : Type} :
    ∀ (clients : List C) (send : C → Except E Unit),
      broadcast_message clients send = Except.ok (send_all send clients)
      ∧ (send_all send clients).length = clients.length
      ∧ ∀ i : ℕ, (send_all send clients)[i]? = (clients[i]?).map send := by
  intro clients send
  refine ⟨?_, ?_, ?_⟩
  · cases clients <;> simp [broadcast_message, send_all]
  · induction clients with
    | nil => rfl
    | cons c cs ih => simp [send_all, ih]
  · intro i
    induction clients generalizing i with
    | nil => simp [send_all]
    | cons c cs ih =>
      cases i with
      | zero => simp [send_all]
      | succ j => simpa [send_all] using ih j

/-- C10: a raising progress callback is swallowed inside
`report_progress` in both the chunker and the transformer (they return
`ok` for every callback), and consequently the split and the dubbing
operations return the same result for any two callbacks — in
particular the same result as with a never-raising callback. -/
theorem progress_callback_errors_contained :
    (∀ (cb : Callback) (msg : String) (p : ℚ),
       VideoProcessor.report_progress cb msg p = Except.ok ())
    ∧ (∀ (cb : Callback) (e : Event),
       SubformerAgent.report_progress cb e = Except.ok ())
    ∧ (∀ (cb cb' : Callback) (d c : ℚ) (cut : ℕ → CutOutcome),
       split_video_to_chunks cb d c cut = split_video_to_chunks cb' d c cut)
    ∧ (∀ (cb cb' : Callback) (att : ℕ → DubAttempt) (m i n : ℕ),
       dub_single_chunk cb att m i n = dub_single_chunk cb' att m i n)
    ∧ (∀ (cb cb' : Callback) (oc : ℕ → ℕ → DubAttempt) (m n : ℕ) (lo : Bool),
       dub_all_chunks cb oc m n true lo = dub_all_chunks cb' oc m n true lo) := by
  refine ⟨vp_report_progress_ok, sa_report_progress_ok, ?_, ?_, ?_⟩
  · intro cb cb' d c cut
    rw [split_video_to_chunks_eq, split_video_to_chunks_eq]
  · intro cb cb' att m i n
    rw [dub_single_chunk_eq, dub_single_chunk_eq]
  · intro cb cb' oc m n lo
    rw [dub_all_chunks_eq, dub_all_chunks_eq]

/-- C2 counterexample: for the single chunk `i = 0` of `n = 1` whose
every attempt fails, the completion event carries progress
`(i/n)*100 = 0` with phase `"error"`, not `(i+1)/n*100 = 100` as the
claim states for exhausted failures. -/
theorem dub_failed_completion_progress_counterexample :
    dub_single_chunk pure_cb bad_att 3 0 1
      = Except.ok ([dub_start_event 0 1, dub_fail_event 0 1], none)
    ∧ (dub_fail_event 0 1).progress = 0
    ∧ (((0 : ℚ) + 1) / (1 : ℚ) * 100) = 100
    ∧ (dub_fail_event 0 1).progress ≠ (((0 : ℚ) + 1) / (1 : ℚ) * 100) := by
  refine ⟨?_, ?_, by norm_num, ?_⟩
  · rw [dub_single_chunk_eq]
    simp [dub_try_attempts, dub_attempt_ok, bad_att]
  · simp [dub_fail_event]
  · simp [dub_fail_event]

/-- C2 (amended): after segment `i` of `n` completes successfully the
emitted progress is exactly `(i+1)/n*100` with phase `"dubbing"`; after
segment `i` exhausts all retries the emitted progress is the phase base
`i/n*100` (not `(i+1)/n*100`) with phase `"error"`. -/
theorem dub_completion_progress (cb : Callback) (att : ℕ → DubAttempt)
    (m i n : ℕ) :
    (dub_try_attempts att 0 m = true →
      dub_single_chunk cb att m i n
        = Except.ok ([dub_start_event i n, dub_done_event i n], some i)
      ∧ (dub_done_event i n).progress = ((i : ℚ) + 1) / (n : ℚ) * 100
      ∧ (dub_done_event i n).phase = some "dubbing")
    ∧ (dub_try_attempts att 0 m = false →
      dub_single_chunk cb att m i n
        = Except.ok ([dub_start_event i n, dub_fail_event i n], none)
      ∧ (dub_fail_event i n).progress = (i : ℚ) / (n : ℚ) * 100
      ∧ (dub_fail_event i n).phase = some "error") := by
  constructor <;> intro h <;> rw [dub_single_chunk_eq] <;>
    simp [h, dub_done_event, dub_fail_event]

/-- Witness for C2's amended theorem at concrete inputs: a succeeding
chunk 0 of 2 and a failing chunk 1 of 2. -/
theorem dub_completion_progress_witness :
    (dub_single_chunk pure_cb good_att 3 0 2
       = Except.ok ([dub_start_event 0 2, dub_done_event 0 2], some 0)
     ∧ (dub_done_event 0 2).progress = ((0 : ℚ) + 1) / (2 : ℚ) * 100
     ∧ (dub_done_event 0 2).phase = some "dubbing")
    ∧ (dub_single_chunk pure_cb bad_att 3 1 2
       = Except.ok ([dub_start_event 1 2, dub_fail_event 1 2], none)
     ∧ (dub_fail_event 1 2).progress = (1 : ℚ) / (2 : ℚ) * 100
     ∧ (dub_fail_event 1 2).phase = some "error") :=
  ⟨(dub_completion_progress pure_cb good_att 3 0 2).1 (by decide),
   (dub_completion_progress pure_cb bad_att 3 1 2).2 (by decide)⟩

/-- C4: for every positive duration `d` and chunk duration `c`, the
computed chunk count equals `⌈d/c⌉`, is at least 1, and when every cut
is accepted the splitter returns exactly the indices `0..⌈d/c⌉-1`, so
the number of produced segments is `⌈d/c⌉`. -/
theorem split_chunk_count (cb : Callback) (d c : ℚ)
    (cut : ℕ → CutOutcome) (hd : 0 < d) (hc : 0 < c)
    (hall : ∀ i, cut_accepted (cut i) = true) :
    num_chunks d c = ⌈d / c⌉
    ∧ 1 ≤ num_chunks d c
    ∧ split_video_to_chunks cb d c cut
        = Except.ok (List.range (num_chunks d c).toNat)
    ∧ (List.range (num_chunks d c).toNat).length = (⌈d / c⌉).toNat := by
  have h1 := num_chunks_ceil d c hd hc
  have h2 := num_chunks_pos d c hd hc
  refine ⟨h1, h2, ?_, by simp [h1]⟩
  rw [split_video_to_chunks_eq]
  have hd' : ¬ d ≤ 0 := not_le.mpr hd
  have hfilter : (List.range (num_chunks d c).toNat).filter
      (fun i => cut_accepted (cut i)) = List.range (num_chunks d c).toNat :=
    List.filter_eq_self.mpr (fun a _ => hall a)
  have hne : (List.range (num_chunks d c).toNat) ≠ [] := by
    have hpos : 0 < (num_chunks d c).toNat := by omega
    simp [List.range_eq_nil]
    omega
  simp [hd', hfilter, List.isEmpty_iff, hne]

/-- Witness for C4 at duration 125 s and chunk duration 60 s (the
spec's worked example: 3 segments). -/
theorem split_chunk_count_witness :
    (num_chunks 125 60 = ⌈(125 : ℚ) / 60⌉
     ∧ 1 ≤ num_chunks 125 60
     ∧ split_video_to_chunks pure_cb 125 60
         (fun _ => { success := true, path_found := true, size := 7 })
         = Except.ok (List.range (num_chunks 125 60).toNat)
     ∧ (List.range (num_chunks 125 60).toNat).length = (⌈(125 : ℚ) / 60⌉).toNat)
    ∧ (⌈(125 : ℚ) / 60⌉ : ℤ) = 3 := by
  refine ⟨split_chunk_count pure_cb 125 60 _ (by norm_num) (by norm_num)
    (fun i => rfl), ?_⟩
  rw [show ((125 : ℚ) / 60) = 125 / 60 from rfl]
  norm_num [Int.ceil_eq_iff]

/-- C5 counterexample: the unbounded claim — the concat list is
strictly ascending by sequence index for *every* artifact list — fails
once an index reaches 10000, where the `%04d` padding no longer
normalises the width: Python's string sort places
`dubbed_chunk_10000.mp4` before `dubbed_chunk_9999.mp4` (`"1" < "9"`),
so the input `[9999, 10000]`, already ascending, is reassembled in
descending index order. -/
theorem merge_concat_descends_at_index_10000 :
    concat_order ([9999, 10000].map dubbed_chunk_name)
      = [dubbed_chunk_name 10000, dubbed_chunk_name 9999]
    ∧ [dubbed_chunk_name 10000, dubbed_chunk_name 9999]
      ≠ [dubbed_chunk_name 9999, dubbed_chunk_name 10000] := by
  constructor
  · have h : lex_le (dubbed_chunk_name 9999) (dubbed_chunk_name 10000)
        = false := by decide
    unfold concat_order
    simp [List.mergeSort, h]
  · decide

/-- C5 (amended): for sequence indices below 10000 — every index the
4-wide zero padding actually normalises — the concat list written by
the merge step lists the dubbed segment artifacts in ascending
sequence-index order, for every input order (sorting the names by
Python's string order coincides with sorting the indices numerically),
and `merge_video_chunks` hands exactly this re-sorted list to the
transcoder; from index 10000 on the string sort diverges from index
order. -/
theorem merge_concat_ascending (ixs : List ℕ)
    (h : ∀ i ∈ ixs, i < 10000) :
    concat_order (ixs.map dubbed_chunk_name)
      = (ixs.mergeSort Nat.ble).map dubbed_chunk_name
    ∧ (ixs ≠ [] →
        merge_video_chunks (ixs.map dubbed_chunk_name) true
          = Except.ok ((ixs.mergeSort Nat.ble).map dubbed_chunk_name)) := by
  have hc := concat_order_map_name ixs h
  refine ⟨hc, fun hne => ?_⟩
  unfold merge_video_chunks
  have hmap : (ixs.map dubbed_chunk_name).isEmpty = false := by
    simp [List.isEmpty_iff, hne]
  simp [hmap, hc]

/-- Witness for C5: results completing in the order 2, 0, 1 are
reassembled in the order 0, 1, 2. -/
theorem merge_concat_ascending_witness :
    concat_order ([2, 0, 1].map dubbed_chunk_name)
      = [dubbed_chunk_name 0, dubbed_chunk_name 1, dubbed_chunk_name 2] := by
  rw [(merge_concat_ascending [2, 0, 1] (by decide)).1]
  simp [List.mergeSort]

/-- C6: if cancellation is observed at an await point lying inside the
dubbing region of the workflow (a `dub_call` step), the final snapshot
written by the `CancelledError` handler is `cancelled` with progress 0,
and no merging, extracting or replacing step is among the steps that
executed. -/
theorem cancel_during_dubbing (n : ℕ) (b : Bool) (k i : ℕ)
    (prior : Status)
    (hk : (workflow_script n b)[k]? = some (WStep.dub_call i)) :
    (cancelled_final_status prior).status = "cancelled"
    ∧ (cancelled_final_status prior).progress = 0
    ∧ (cancelled_final_status prior).phase = "cancelled"
    ∧ ∀ w ∈ cancelled_run_steps n b k,
        w ≠ WStep.merge_call ∧ w ≠ WStep.extract_call ∧ w ≠ WStep.replace_call := by
  have hlt := workflow_script_dub_lt n b k i hk
  exact ⟨rfl, rfl, rfl, workflow_script_prefix_no_tail n b k hlt⟩

/-- Witness for C6: a 2-chunk job cancelled at await point 4 (the
first dubbing call). -/
theorem cancel_during_dubbing_witness :
    (workflow_script 2 true)[4]? = some (WStep.dub_call 0)
    ∧ ((cancelled_final_status processing_snapshot).status = "cancelled"
       ∧ (cancelled_final_status processing_snapshot).progress = 0
       ∧ (cancelled_final_status processing_snapshot).phase = "cancelled"
       ∧ ∀ w ∈ cancelled_run_steps 2 true 4,
           w ≠ WStep.merge_call ∧ w ≠ WStep.extract_call
           ∧ w ≠ WStep.replace_call) :=
  ⟨rfl, cancel_during_dubbing 2 true 4 0 processing_snapshot rfl⟩

/-- C7: for a positive duration, a chunk index is in the returned list
iff its cut succeeded and the artifact exists with non-zero size; one
failed cut does not abort the split (some accepted index suffices for
an `ok` result); and the split raises `NoSegmentsProduced` exactly
when every cut was rejected. -/
theorem split_accept_skip_fail (cb : Callback) (d c : ℚ)
    (cut : ℕ → CutOutcome) (hd : 0 < d) :
    (∀ l, split_video_to_chunks cb d c cut = Except.ok l →
       ∀ i : ℕ, i ∈ l ↔ i < (num_chunks d c).toNat ∧ cut_accepted (cut i) = true)
    ∧ ((∃ i, i < (num_chunks d c).toNat ∧ cut_accepted (cut i) = true) →
        ∃ l, split_video_to_chunks cb d c cut = Except.ok l)
    ∧ (split_video_to_chunks cb d c cut
         = Except.error "Nem sikerült egyetlen chunkot sem létrehozni"
       ↔ ∀ i, i < (num_chunks d c).toNat → cut_accepted (cut i) = false) := by
  have hd' : ¬ d ≤ 0 := not_le.mpr hd
  rw [split_video_to_chunks_eq]
  simp only [hd', if_false]
  refine ⟨?_, ?_, ?_⟩
  · intro l hl i
    by_cases hemp : ((List.range (num_chunks d c).toNat).filter
        fun i => cut_accepted (cut i)).isEmpty
    · simp [hemp] at hl
    · simp [hemp] at hl
      subst hl
      simp [List.mem_filter, List.mem_range]
  · intro ⟨i, hi, hacc⟩
    have hmem : i ∈ (List.range (num_chunks d c).toNat).filter
        (fun i => cut_accepted (cut i)) := by
      simp [List.mem_filter, List.mem_range, hi, hacc]
    have hemp : ((List.range (num_chunks d c).toNat).filter
        fun i => cut_accepted (cut i)).isEmpty = false := by
      rcases hq : ((List.range (num_chunks d c).toNat).filter
          fun i => cut_accepted (cut i)) with _ | _
      · rw [hq] at hmem; simp at hmem
      · rfl
    simp [hemp]
  · constructor
    · intro herr i hi
      by_cases hemp : ((List.range (num_chunks d c).toNat).filter
          fun i => cut_accepted (cut i)).isEmpty
      · rw [List.isEmpty_iff, List.filter_eq_nil_iff] at hemp
        have := hemp i (List.mem_range.mpr hi)
        simpa using this
      · simp [hemp] at herr
    · intro hall
      have hnil : ((List.range (num_chunks d c).toNat).filter
          fun i => cut_accepted (cut i)) = [] := by
        rw [List.filter_eq_nil_iff]
        intro a ha
        simp [hall a (List.mem_range.mp ha)]
      simp [hnil]

/-- Witness for C7 at duration 125 s, chunk 60 s, with every cut
rejected: the split fails with the no-segments error. -/
theorem split_accept_skip_fail_witness :
    split_video_to_chunks pure_cb 125 60
        (fun _ => { success := false, path_found := false, size := 0 })
      = Except.error "Nem sikerült egyetlen chunkot sem létrehozni" :=
  (split_accept_skip_fail pure_cb 125 60 _ (by norm_num)).2.2.mpr
    (fun _ _ => rfl)

/-- C8: the dubbed set is exactly the segments that succeeded (an
exhausted segment is skipped, the job proceeds); with the reassembly
collaborators succeeding, the job succeeds iff at least one segment
succeeded; and when every segment fails, the payload is the
total-failure dictionary with `success = false` and the workflow
finishes in the `error` state carrying the total-failure message. -/
theorem all_segments_failed_yields_error (cb : Callback)
    (oc : ℕ → ℕ → DubAttempt) (m n : ℕ) (prior : Status) :
    ((process_video_with_dubbing cb oc m n true true true true true).dubbed_chunks
       = (List.range n).filter fun i => dub_try_attempts (oc i) 0 m)
    ∧ ((process_video_with_dubbing cb oc m n true true true true true).success = true
       ↔ ((List.range n).filter fun i => dub_try_attempts (oc i) 0 m) ≠ [])
    ∧ ((∀ i, i < n → dub_try_attempts (oc i) 0 m = false) →
        process_video_with_dubbing cb oc m n true true true true true
          = fail_payload "Nem sikerült dubbingolni egyetlen chunkot sem"
        ∧ (run_workflow_finish prior
            (process_video_with_dubbing cb oc m n true true true true true)).1.status
            = "error"
        ∧ (run_workflow_finish prior
            (process_video_with_dubbing cb oc m n true true true true true)).1.message
            = "Nem sikerült dubbingolni egyetlen chunkot sem"
        ∧ (run_workflow_finish prior
            (process_video_with_dubbing cb oc m n true true true true true)).1.progress
            = 0
        ∧ (run_workflow_finish prior
            (process_video_with_dubbing cb oc m n true true true true true)).2.success
            = false) := by
  have pe := process_video_with_dubbing_eq cb oc m n true
  refine ⟨?_, ?_, ?_⟩
  · rw [pe]
    by_cases hemp : ((List.range n).filter
        fun i => dub_try_attempts (oc i) 0 m).isEmpty
    · rw [List.isEmpty_iff] at hemp
      simp [hemp, fail_payload]
    · simp [hemp]
  · rw [pe]
    by_cases hemp : ((List.range n).filter
        fun i => dub_try_attempts (oc i) 0 m).isEmpty
    · rw [List.isEmpty_iff] at hemp
      simp [hemp, fail_payload]
    · rw [Bool.not_eq_true, List.isEmpty_eq_false_iff_exists_mem] at hemp
      obtain ⟨x, hx⟩ := hemp
      have hne : ((List.range n).filter
          fun i => dub_try_attempts (oc i) 0 m) ≠ [] := by
        intro hq; rw [hq] at hx; simp at hx
      simp [List.isEmpty_iff, hne]
  · intro hall
    have hnil : ((List.range n).filter
        fun i => dub_try_attempts (oc i) 0 m) = [] := by
      rw [List.filter_eq_nil_iff]
      intro a ha
      simp [hall a (List.mem_range.mp ha)]
    have hp : process_video_with_dubbing cb oc m n true true true true true
        = fail_payload "Nem sikerült dubbingolni egyetlen chunkot sem" := by
      rw [pe, hnil]
      simp [List.isEmpty_nil]
    refine ⟨hp, ?_, ?_, ?_, ?_⟩ <;>
      rw [hp] <;> rfl

/-- Witness for C8: a 2-chunk job whose every chunk fails all 3
attempts ends with the total-failure payload and the `error`
snapshot. -/
theorem all_segments_failed_yields_error_witness :
    process_video_with_dubbing pure_cb (fun _ => bad_att) 3 2 true true true true true
      = fail_payload "Nem sikerült dubbingolni egyetlen chunkot sem"
    ∧ (run_workflow_finish processing_snapshot
        (process_video_with_dubbing pure_cb (fun _ => bad_att) 3 2 true true true true true)).1.status
        = "error"
    ∧ (run_workflow_finish processing_snapshot
        (process_video_with_dubbing pure_cb (fun _ => bad_att) 3 2 true true true true true)).2.success
        = false :=
  letI h := (all_segments_failed_yields_error pure_cb (fun _ => bad_att)
    3 2 processing_snapshot).2.2 (fun _ _ => rfl)
  ⟨h.1, h.2.1, h.2.2.2.2⟩

end Bibicut
